import Mathlib

/-!
Verification of the validation core of `mcp-validator-server`.

The repository exposes four stateless validation checks (email, phone, URL,
custom regex) plus thin transport wrappers (a FastAPI REST layer and a Django
client helper).  This file gives a shallow embedding of those checks in Lean
and proves the contract properties stated in the specification.

Modelling conventions:
* Python dicts returned by the checks become the `ValidationResult` structure
  (the optional `match` key is called `matched` here, `match` being a Lean
  keyword; the optional `details` dict becomes an association list).
* The two built-in patterns (`EMAIL_PATTERN`, `PHONE_PATTERN`) are embedded as
  executable scanners over `List Char` whose language provably coincides with
  the regex language.  Python's `re.match` with a pattern ending in `$` also
  accepts a match that stops just before a single trailing newline; the
  wrapper `pyMatchDollar` reproduces that behaviour.
* `urllib.parse.urlparse` and the needed subset of `re` are embedded from the
  CPython 3.11 sources; each model states its scope where it is a subset.
* Character classes are modelled over ASCII, matching the code points the
  patterns name explicitly.  (`\d` in CPython additionally matches non-ASCII
  Unicode decimal digits; theorems about the phone check are therefore stated
  for ASCII inputs.)
-/

/-- Result shape shared by all four checks (`dict` in the Python sources).
`matched` models the optional `match` key of the regex check, `details` the
optional `details` dict of the URL check. -/
structure ValidationResult where
  valid : Bool
  input : String
  message : String
  pattern : Option String := none
  matched : Option String := none
  details : Option (List (String × String)) := none
deriving DecidableEq, Repr

/-! ## Character classes of the built-in patterns (all ASCII literals) -/

/-- Character class `[a-zA-Z0-9._%+-]` of `EMAIL_PATTERN` (local part). -/
def isLocalChar (c : Char) : Bool :=
  c.isAlpha || c.isDigit || c == '.' || c == '_' || c == '%' || c == '+' || c == '-'

/-- Character class `[a-zA-Z0-9.-]` of `EMAIL_PATTERN` (domain part). -/
def isDomainChar (c : Char) : Bool :=
  c.isAlpha || c.isDigit || c == '.' || c == '-'

/-! ## Email check (`validators/email.py`)

`EMAIL_PATTERN = ^[a-zA-Z0-9._%+-]+@[a-zA-Z0-9.-]+\.[a-zA-Z]{2,}$`.
Because `@` is in neither class, a matching string has its local part ending
at the first `@`; because the top-level label `[a-zA-Z]{2,}` contains no dot
and runs to the anchor, its dot is the last dot after the `@`.  The scanner
below decides the language by exactly these two deterministic splits. -/

/-- Matcher for the part of `EMAIL_PATTERN` after the `@`:
`[a-zA-Z0-9.-]+\.[a-zA-Z]{2,}` anchored on both sides.  The top-level label
contains no dot, so the split is at the last dot. -/
def emailDomainMatch (r : List Char) : Bool :=
  match r.reverse.dropWhile (fun c => c != '.') with
  | b2 :: drev =>
    b2 == '.' &&
    decide (2 ≤ (r.reverse.takeWhile (fun c => c != '.')).length) &&
    (r.reverse.takeWhile (fun c => c != '.')).all Char.isAlpha &&
    (!drev.isEmpty) && drev.all isDomainChar
  | _ => false

/-- Matcher for `EMAIL_PATTERN` without the `$` newline concession: decides
whether the whole character list belongs to the regex language. -/
def emailCoreMatch (cs : List Char) : Bool :=
  match cs.dropWhile (fun c => c != '@') with
  | b :: r =>
    b == '@' &&
    (!(cs.takeWhile (fun c => c != '@')).isEmpty) &&
    (cs.takeWhile (fun c => c != '@')).all isLocalChar &&
    emailDomainMatch r
  | _ => false

/-- CPython `re.match` semantics for a pattern of the shape `^X$` where `X`
cannot match a newline: `$` matches at the end of the string or just before a
newline that is the last character. -/
def pyMatchDollar (core : List Char → Bool) (s : String) : Bool :=
  core s.data || (s.data.getLast? == some '\n' && core s.data.dropLast)

/-- `validate_email` from `validators/email.py` (lines 33-39). -/
def validate_email (email : String) : ValidationResult :=
  let is_valid := pyMatchDollar emailCoreMatch email
  { valid := is_valid
    input := email
    message := if is_valid then "Valid email format" else "Invalid email format" }

/-- Declarative reading of the specification's email contract: the entire
string decomposes as `local-part ++ "@" ++ domain ++ "." ++ tld` with a
nonempty local part over `[A-Za-z0-9._%+-]`, a nonempty domain over
`[A-Za-z0-9.-]`, and a top-level label of at least two ASCII letters. -/
def EmailSpec (cs : List Char) : Prop :=
  ∃ l d t : List Char,
    cs = l ++ '@' :: (d ++ '.' :: t) ∧
    l ≠ [] ∧ (∀ c ∈ l, isLocalChar c = true) ∧
    d ≠ [] ∧ (∀ c ∈ d, isDomainChar c = true) ∧
    2 ≤ t.length ∧ (∀ c ∈ t, c.isAlpha = true)

/-! ## Phone check (`validators/phone.py`)

`PHONE_PATTERN = ^\+[1-9]\d{9,14}$`. -/

/-- Matcher for `PHONE_PATTERN` without the `$` newline concession.  `\d` is
modelled as the ASCII digits `0-9` (CPython's `\d` additionally matches
non-ASCII Unicode decimal digits; theorems below are stated for ASCII input,
where the two agree). -/
def phoneCoreMatch : List Char → Bool
  | a :: c :: rest =>
    a == '+' && decide ('1' ≤ c) && decide (c ≤ '9') && rest.all Char.isDigit &&
    decide (9 ≤ rest.length) && decide (rest.length ≤ 14)
  | _ => false

/-- `validate_phone` from `validators/phone.py` (lines 35-44). -/
def validate_phone (phone_number : String) : ValidationResult :=
  let is_valid := pyMatchDollar phoneCoreMatch phone_number
  { valid := is_valid
    input := phone_number
    message :=
      if is_valid then "Valid E.164 phone format"
      else "Invalid phone format. Use E.164: +[country][number]" }

/-- Declarative reading of the specification's phone contract: a leading `+`,
a first digit `1-9`, then 9 to 14 further digits. -/
def PhoneSpec (cs : List Char) : Prop :=
  ∃ (c : Char) (rest : List Char),
    cs = '+' :: c :: rest ∧ '1' ≤ c ∧ c ≤ '9' ∧
    (∀ x ∈ rest, x.isDigit = true) ∧ 9 ≤ rest.length ∧ rest.length ≤ 14

/-! ## URL check (`validators/url.py`)

The check delegates parsing to `urllib.parse.urlparse`.  The model below
embeds CPython 3.11's `urlsplit`/`urlparse` for `str` input with the default
arguments used by the check (`scheme=''`, `allow_fragments=True`):
leading WHATWG C0-control-or-space stripping, removal of `\t`/`\r`/`\n`,
scheme split, authority split with the mismatched-bracket `ValueError`,
fragment and query split, and the params split of `urlparse`.
Out of scope of the model: `_check_bracketed_host` (additional validation
that only fires when the authority contains both `[` and `]`) and the NFKC
check of `_checknetloc` (a no-op for ASCII authorities).  No theorem below
evaluates the parser on an authority containing brackets or non-ASCII. -/

/-- Result of `urlparse` restricted to the six string components. -/
structure UrlParseResult where
  scheme : String
  netloc : String
  path : String
  params : String
  query : String
  fragment : String
deriving DecidableEq, Repr

/-- `scheme_chars` of `urllib.parse`. -/
def schemeChars : List Char :=
  "abcdefghijklmnopqrstuvwxyzABCDEFGHIJKLMNOPQRSTUVWXYZ0123456789+-.".data

/-- `uses_params` of `urllib.parse` (CPython 3.11). -/
def usesParams : List String :=
  ["", "ftp", "hdl", "prospero", "http", "imap", "https", "shttp", "rtsp",
   "rtsps", "rtspu", "sip", "sips", "mms", "sftp", "tel"]

/-- Split a list at the first occurrence of `c`; `none` if absent
(Python `x.split(c, 1)` guarded by `c in x`). -/
def splitAtFirst (c : Char) (u : List Char) : Option (List Char × List Char) :=
  if u.contains c then
    some (u.takeWhile (fun x => x != c), (u.dropWhile (fun x => x != c)).tail)
  else none

/-- `_splitnetloc(url, 2)` applied after the leading `//` has been dropped:
the authority runs to the first of `/`, `?`, `#`. -/
def splitnetloc (u : List Char) : List Char × List Char :=
  (u.takeWhile (fun c => !(c == '/' || c == '?' || c == '#')),
   u.dropWhile (fun c => !(c == '/' || c == '?' || c == '#')))

/-- `_splitparams`: split params off the last path segment. -/
def splitparams (u : List Char) : List Char × List Char :=
  if u.contains '/' then
    let afterLastSlash := (u.reverse.takeWhile (fun x => x != '/')).reverse
    match splitAtFirst ';' afterLastSlash with
    | some (a, b) => (u.take (u.length - afterLastSlash.length) ++ a, b)
    | none => (u, [])
  else
    match splitAtFirst ';' u with
    | some (a, b) => (a, b)
    | none => (u, [])

/-- WHATWG C0 control or space (code points `0x00`-`0x20`). -/
def isC0OrSpace (c : Char) : Bool := decide (c.toNat ≤ 32)

/-- The bytes removed everywhere by `urlsplit` (`_UNSAFE_URL_BYTES_TO_REMOVE`). -/
def isUnsafeUrlByte (c : Char) : Bool := c == '\t' || c == '\r' || c == '\n'

/-- CPython 3.11 `urlsplit` (without the bracketed-host validation; see the
section comment).  Errors model the `ValueError` raised on mismatched
brackets in the authority. -/
def pyUrlsplit (url : String) : Except String (String × String × String × String × String) :=
  let u0 := url.data.dropWhile isC0OrSpace
  let u1 := u0.filter (fun c => !isUnsafeUrlByte c)
  let pre := u1.takeWhile (fun c => c != ':')
  let (scheme, rest) :=
    match u1.dropWhile (fun c => c != ':') with
    | ':' :: r =>
      match pre with
      | c :: _ =>
        if c.isAlpha && pre.all (fun x => schemeChars.contains x) then
          (pre.map Char.toLower, r)
        else ([], u1)
      | [] => ([], u1)
    | _ => ([], u1)
  match rest with
  | '/' :: '/' :: r2 =>
    let (netloc, rest2) := splitnetloc r2
    if (netloc.contains '[' && !netloc.contains ']') ||
       (netloc.contains ']' && !netloc.contains '[') then
      .error "Invalid IPv6 URL"
    else
      let (rest3, fragment) :=
        match splitAtFirst '#' rest2 with
        | some (a, b) => (a, b)
        | none => (rest2, [])
      let (path, query) :=
        match splitAtFirst '?' rest3 with
        | some (a, b) => (a, b)
        | none => (rest3, [])
      .ok (⟨scheme⟩, ⟨netloc⟩, ⟨path⟩, ⟨query⟩, ⟨fragment⟩)
  | _ =>
    let (rest3, fragment) :=
      match splitAtFirst '#' rest with
      | some (a, b) => (a, b)
      | none => (rest, [])
    let (path, query) :=
      match splitAtFirst '?' rest3 with
      | some (a, b) => (a, b)
      | none => (rest3, [])
    .ok (⟨scheme⟩, "", ⟨path⟩, ⟨query⟩, ⟨fragment⟩)

/-- CPython 3.11 `urlparse`: `urlsplit` plus the params split. -/
def pyUrlparse (url : String) : Except String UrlParseResult :=
  match pyUrlsplit url with
  | .error e => .error e
  | .ok (scheme, netloc, path, query, fragment) =>
    if usesParams.contains scheme && path.data.contains ';' then
      let (p, par) := splitparams path.data
      .ok ⟨scheme, netloc, ⟨p⟩, ⟨par⟩, query, fragment⟩
    else
      .ok ⟨scheme, netloc, path, "", query, fragment⟩

/-- Branch logic of `validate_url` (`validators/url.py` lines 46-75) applied
to a successful parse. -/
def validate_url_body (url : String) (parsed : UrlParseResult) : ValidationResult :=
  let is_valid := (["http", "https"] : List String).contains parsed.scheme
  let has_domain := parsed.netloc != ""
  if is_valid && has_domain then
    { valid := true
      input := url
      message := "Valid HTTP/HTTPS URL"
      details := some [("scheme", parsed.scheme), ("netloc", parsed.netloc),
                       ("path", if parsed.path == "" then "/" else parsed.path)] }
  else if !has_domain then
    { valid := false
      input := url
      message := "Invalid URL: missing domain"
      details := some [("scheme", if parsed.scheme == "" then "none" else parsed.scheme)] }
  else
    { valid := false
      input := url
      message := "Invalid URL scheme. Only HTTP/HTTPS allowed"
      details := some [("scheme", if parsed.scheme == "" then "none" else parsed.scheme)] }

/-- `validate_url` from `validators/url.py` (lines 42-83): the `try`/`except`
around the parse reifies a parsing `ValueError` into a `valid=false` result
with empty `details`. -/
def validate_url (url : String) : ValidationResult :=
  match pyUrlparse url with
  | .ok parsed => validate_url_body url parsed
  | .error e =>
    { valid := false
      input := url
      message := "URL parsing error: " ++ e
      details := some [] }

/-! ## Regex check (`validators/custom_regex.py`)

The check compiles a user pattern with `re.compile` and searches the text
with `pattern.search`.  The model below embeds the CPython 3.11 `re` parser
and backtracking matcher for the following subset of the syntax: literals,
`.`, `^`, `$`, `\A`, `\Z`, `\b`, `\B`, the class escapes `\d \D \w \W \s \S`,
character/hex/octal escapes, character sets `[...]` with ranges and negation,
alternation `|`, plain and `(?:` groups, and the quantifiers `* + ?` and
`{m,n}` in greedy, lazy (`?`) and possessive (`+`) form, including CPython's
rule that a `{` not forming a valid quantifier is a literal.  Outside the
subset (reported as compile errors with an explicit message): other `(?`
extension groups and backreferences.  Character semantics are ASCII, matching
CPython on ASCII input; error messages reproduce CPython's wording, with
`... at position N` giving the same positions. -/

/-- Compile-time flag set of the check (`i`, `m`, `s`, `x`, `a`).  The `a`
(`re.ASCII`) flag has no observable effect in this ASCII-scoped model but is
tracked because it contributes to the result message. -/
structure ReFlags where
  i : Bool
  m : Bool
  s : Bool
  x : Bool
  a : Bool
deriving DecidableEq, Repr

/-- The `\d` / `\w` / `\s` family. -/
inductive PerlK where
  | dig
  | word
  | space
deriving DecidableEq, Repr

/-- Membership for the class escapes (ASCII semantics). -/
def perlMem : PerlK → Char → Bool
  | .dig, c => c.isDigit
  | .word, c => c.isAlpha || c.isDigit || c == '_'
  | .space, c => c == ' ' || c == '\t' || c == '\n' || c == '\r' || c == '\x0b' || c == '\x0c'

/-- One member of a character set: a (possibly singleton) range, or a class
escape with its negation. -/
inductive ClsItem where
  | rng (lo hi : Char)
  | pcls (k : PerlK) (neg : Bool)
deriving DecidableEq, Repr

/-- Quantifier mode: greedy, lazy (`*?`) or possessive (`*+`). -/
inductive RMode where
  | greedy
  | lazy
  | poss
deriving DecidableEq, Repr

/-- Abstract syntax of the modelled regex subset. -/
inductive RE where
  | eps
  | lit (c : Char)
  | anyc
  | cset (neg : Bool) (items : List ClsItem)
  | pesc (k : PerlK) (neg : Bool)
  | caret
  | dollar
  | aStart
  | zEnd
  | wordB (neg : Bool)
  | cat (a b : RE)
  | alt (a b : RE)
  | rep (a : RE) (lo : Nat) (hi : Option Nat) (mode : RMode)
  | grp (a : RE)
deriving DecidableEq, Repr

/-- Render a CPython-style error with its position. -/
def errAt (msg : String) (p : Nat) : String := msg ++ " at position " ++ toString p

/-- Whitespace ignored in verbose mode (sre's `WHITESPACE`). -/
def isPyWs (c : Char) : Bool :=
  c == ' ' || c == '\t' || c == '\n' || c == '\r' || c == '\x0b' || c == '\x0c'

/-- In verbose mode, skip whitespace and `#`-to-end-of-line comments. -/
def skipVerbose : List Char → Nat → Bool → List Char × Nat
  | [], p, _ => ([], p)
  | c :: rest, p, inComment =>
    if inComment then skipVerbose rest (p + 1) (c != '\n')
    else if c == '#' then skipVerbose rest (p + 1) true
    else if isPyWs c then skipVerbose rest (p + 1) false
    else (c :: rest, p)

/-- Conditional verbose skipping. -/
def skipVs (vx : Bool) (cs : List Char) (p : Nat) : List Char × Nat :=
  if vx then skipVerbose cs p false else (cs, p)

def isHexDigitCh (c : Char) : Bool :=
  c.isDigit || (decide ('a' ≤ c) && decide (c ≤ 'f')) || (decide ('A' ≤ c) && decide (c ≤ 'F'))

def isOctDigitCh (c : Char) : Bool := decide ('0' ≤ c) && decide (c ≤ '7')

def hexVal (c : Char) : Nat :=
  if c.isDigit then c.toNat - 48
  else if decide ('a' ≤ c) && decide (c ≤ 'f') then c.toNat - 87
  else c.toNat - 55

def hexListVal (ds : List Char) : Nat := ds.foldl (fun acc d => 16 * acc + hexVal d) 0

def octListVal (ds : List Char) : Nat := ds.foldl (fun acc d => 8 * acc + (d.toNat - 48)) 0

def digitsVal (ds : List Char) : Nat := ds.foldl (fun acc d => 10 * acc + (d.toNat - 48)) 0

/-- Parse a hex escape body of fixed width (`\xHH`, `\uHHHH`, `\UHHHHHHHH`).
`intro` is the escape introducer for the error message, `p` the position of
the backslash. -/
def parseHexEsc (intro : String) (width : Nat) (r : List Char) (p : Nat) :
    Except String (Char × List Char × Nat) :=
  let ds := (r.take width).takeWhile isHexDigitCh
  if ds.length == width then
    .ok (Char.ofNat (hexListVal ds), r.drop width, p + 2 + width)
  else .error (errAt ("incomplete escape \\" ++ intro ++ ⟨ds⟩) p)

/-- An escape as it occurs outside a character set: an atom plus its
repeatability (zero-width assertions cannot be quantified). -/
def parseEscAtom (rest : List Char) (p : Nat) : Except String ((RE × Bool) × List Char × Nat) :=
  match rest with
  | [] => .error (errAt "bad escape (end of pattern)" p)
  | c :: r =>
    if c == 'd' then .ok ((RE.pesc .dig false, true), r, p + 2)
    else if c == 'D' then .ok ((RE.pesc .dig true, true), r, p + 2)
    else if c == 'w' then .ok ((RE.pesc .word false, true), r, p + 2)
    else if c == 'W' then .ok ((RE.pesc .word true, true), r, p + 2)
    else if c == 's' then .ok ((RE.pesc .space false, true), r, p + 2)
    else if c == 'S' then .ok ((RE.pesc .space true, true), r, p + 2)
    else if c == 'A' then .ok ((RE.aStart, false), r, p + 2)
    else if c == 'Z' then .ok ((RE.zEnd, false), r, p + 2)
    else if c == 'b' then .ok ((RE.wordB false, false), r, p + 2)
    else if c == 'B' then .ok ((RE.wordB true, false), r, p + 2)
    else if c == 'n' then .ok ((RE.lit '\n', true), r, p + 2)
    else if c == 't' then .ok ((RE.lit '\t', true), r, p + 2)
    else if c == 'r' then .ok ((RE.lit '\r', true), r, p + 2)
    else if c == 'f' then .ok ((RE.lit '\x0c', true), r, p + 2)
    else if c == 'v' then .ok ((RE.lit '\x0b', true), r, p + 2)
    else if c == 'a' then .ok ((RE.lit '\x07', true), r, p + 2)
    else if c == 'x' then
      match parseHexEsc "x" 2 r p with
      | .ok (ch, r2, p2) => .ok ((RE.lit ch, true), r2, p2)
      | .error e => .error e
    else if c == 'u' then
      match parseHexEsc "u" 4 r p with
      | .ok (ch, r2, p2) => .ok ((RE.lit ch, true), r2, p2)
      | .error e => .error e
    else if c == 'U' then
      match parseHexEsc "U" 8 r p with
      | .ok (ch, r2, p2) => .ok ((RE.lit ch, true), r2, p2)
      | .error e => .error e
    else if c == '0' then
      let ds := (r.take 2).takeWhile isOctDigitCh
      .ok ((RE.lit (Char.ofNat (octListVal ds)), true), r.drop ds.length, p + 2 + ds.length)
    else if c.isDigit then
      .error (errAt "backreference escape outside the modelled subset" p)
    else if c.isAlpha then
      .error (errAt ("bad escape \\" ++ ⟨[c]⟩) p)
    else .ok ((RE.lit c, true), r, p + 2)

/-- One unit inside a character set: a single character or a class escape. -/
inductive ClsUnit where
  | uch (c : Char)
  | upcls (k : PerlK) (neg : Bool)
deriving DecidableEq, Repr

/-- An escape as it occurs inside a character set (`\b` is backspace there;
numeric escapes are octal). -/
def parseEscCls (rest : List Char) (p : Nat) : Except String (ClsUnit × List Char × Nat) :=
  match rest with
  | [] => .error (errAt "bad escape (end of pattern)" p)
  | c :: r =>
    if c == 'd' then .ok (.upcls .dig false, r, p + 2)
    else if c == 'D' then .ok (.upcls .dig true, r, p + 2)
    else if c == 'w' then .ok (.upcls .word false, r, p + 2)
    else if c == 'W' then .ok (.upcls .word true, r, p + 2)
    else if c == 's' then .ok (.upcls .space false, r, p + 2)
    else if c == 'S' then .ok (.upcls .space true, r, p + 2)
    else if c == 'n' then .ok (.uch '\n', r, p + 2)
    else if c == 't' then .ok (.uch '\t', r, p + 2)
    else if c == 'r' then .ok (.uch '\r', r, p + 2)
    else if c == 'f' then .ok (.uch '\x0c', r, p + 2)
    else if c == 'v' then .ok (.uch '\x0b', r, p + 2)
    else if c == 'a' then .ok (.uch '\x07', r, p + 2)
    else if c == 'b' then .ok (.uch '\x08', r, p + 2)
    else if c == 'x' then
      match parseHexEsc "x" 2 r p with
      | .ok (ch, r2, p2) => .ok (.uch ch, r2, p2)
      | .error e => .error e
    else if c == 'u' then
      match parseHexEsc "u" 4 r p with
      | .ok (ch, r2, p2) => .ok (.uch ch, r2, p2)
      | .error e => .error e
    else if c == 'U' then
      match parseHexEsc "U" 8 r p with
      | .ok (ch, r2, p2) => .ok (.uch ch, r2, p2)
      | .error e => .error e
    else if c.isDigit then
      let ds := ((c :: r).take 3).takeWhile isOctDigitCh
      if ds.isEmpty then .error (errAt ("bad escape \\" ++ ⟨[c]⟩) p)
      else .ok (.uch (Char.ofNat (octListVal ds)), (c :: r).drop ds.length, p + 1 + ds.length)
    else if c.isAlpha then
      .error (errAt ("bad escape \\" ++ ⟨[c]⟩) p)
    else .ok (.uch c, r, p + 2)

/-- Read one unit of a character set. -/
def readClsUnit (cs : List Char) (pp : Nat) : Except String (ClsUnit × List Char × Nat) :=
  match cs with
  | '\\' :: r => parseEscCls r pp
  | c :: r => .ok (.uch c, r, pp + 1)
  | [] => .error (errAt "bad escape (end of pattern)" pp)

/-- A class unit standing alone becomes a set item. -/
def clsUnitItem : ClsUnit → ClsItem
  | .uch c => .rng c c
  | .upcls k neg => .pcls k neg

/-- Parse the items of a character set up to and including the closing `]`.
`pOpen` is the position of the opening `[`; `first` marks the position right
after `[`/`[^`, where `]` is a literal member. -/
def parseClsItems (pOpen : Nat) : Nat → List Char → Nat → Bool → Except String (List ClsItem × List Char × Nat)
  | 0, _, _, _ => .error (errAt "unterminated character set" pOpen)
  | f + 1, cs, pp, first =>
    match cs with
    | [] => .error (errAt "unterminated character set" pOpen)
    | ']' :: r =>
      if first then
        match parseClsItems pOpen f r (pp + 1) false with
        | .ok (items, cs2, p2) => .ok (ClsItem.rng ']' ']' :: items, cs2, p2)
        | .error e => .error e
      else .ok ([], r, pp + 1)
    | _ =>
      match readClsUnit cs pp with
      | .error e => .error e
      | .ok (u1, cs1, p1) =>
        match cs1 with
        | '-' :: ']' :: r2 => .ok ([clsUnitItem u1, ClsItem.rng '-' '-'], r2, p1 + 2)
        | '-' :: c2 :: r2 =>
          match readClsUnit (c2 :: r2) (p1 + 1) with
          | .error e => .error e
          | .ok (u2, cs2, p2) =>
            match u1, u2 with
            | .uch a, .uch b =>
              if decide (a ≤ b) then
                match parseClsItems pOpen f cs2 p2 false with
                | .ok (items, cs3, p3) => .ok (ClsItem.rng a b :: items, cs3, p3)
                | .error e => .error e
              else .error (errAt ("bad character range " ++ ⟨[a]⟩ ++ "-" ++ ⟨[b]⟩) pp)
            | _, _ => .error (errAt "bad character range" pp)
        | '-' :: [] => .error (errAt "unterminated character set" pOpen)
        | _ =>
          match parseClsItems pOpen f cs1 p1 false with
          | .ok (items, cs2, p2) => .ok (clsUnitItem u1 :: items, cs2, p2)
          | .error e => .error e

/-- Parse a whole character set following the opening `[` at `pOpen`. -/
def parseClsAtom (f : Nat) (rest : List Char) (pOpen : Nat) : Except String (RE × List Char × Nat) :=
  match rest with
  | '^' :: r =>
    match parseClsItems pOpen f r (pOpen + 2) true with
    | .ok (items, cs, p) => .ok (RE.cset true items, cs, p)
    | .error e => .error e
  | _ =>
    match parseClsItems pOpen f rest (pOpen + 1) true with
    | .ok (items, cs, p) => .ok (RE.cset false items, cs, p)
    | .error e => .error e

/-- Parse a `{m,n}` quantifier body (after the `{`).  Returns `none` when the
braces do not form a quantifier, in which case `{` is a literal (CPython's
fallback, including the immediate `{}` case). -/
def parseBraceQuant (cs : List Char) (p : Nat) : Option ((Nat × Option Nat) × List Char × Nat) :=
  match cs with
  | '}' :: _ => none
  | _ =>
    let lo := cs.takeWhile Char.isDigit
    let r1 := cs.dropWhile Char.isDigit
    match r1 with
    | ',' :: r2 =>
      let hi := r2.takeWhile Char.isDigit
      let r3 := r2.dropWhile Char.isDigit
      match r3 with
      | '}' :: r4 =>
        some ((digitsVal lo, if hi.isEmpty then none else some (digitsVal hi)), r4,
              p + lo.length + 1 + hi.length + 1)
      | _ => none
    | '}' :: r4 => some ((digitsVal lo, some (digitsVal lo)), r4, p + lo.length + 1)
    | _ => none

/-! ### Pattern parser

Recursive descent over the pattern, mirroring sre's `_parse`.  The `Nat`
fuel bounds the nesting depth of the recursion; `pyCompile` passes a fuel
larger than the pattern length, which the grammar can never exhaust (every
level of nesting consumes at least one character). -/

def parseQMode (vx : Bool) (a : RE) (lo : Nat) (hi : Option Nat) (cs2 : List Char) (p2 : Nat) :
    Except String (RE × List Char × Nat) :=
  let (cs2', p2') := skipVs vx cs2 p2
  let (mode, cs3, p3) :=
    match cs2' with
    | '?' :: r => (RMode.lazy, r, p2' + 1)
    | '+' :: r => (RMode.poss, r, p2' + 1)
    | _ => (RMode.greedy, cs2', p2')
  let (cs3', p3') := skipVs vx cs3 p3
  match cs3' with
  | '*' :: _ => .error (errAt "multiple repeat" p3')
  | '+' :: _ => .error (errAt "multiple repeat" p3')
  | '?' :: _ => .error (errAt "multiple repeat" p3')
  | '{' :: r =>
    match parseBraceQuant r (p3' + 1) with
    | some _ => .error (errAt "multiple repeat" p3')
    | none => .ok (RE.rep a lo hi mode, cs3, p3)
  | _ => .ok (RE.rep a lo hi mode, cs3, p3)


mutual

def parseAlt (fuel : Nat) (vx : Bool) (cs : List Char) (p : Nat) :
    Except String (RE × List Char × Nat) :=
  match fuel with
  | 0 => .error (errAt "pattern too deeply nested for the model" p)
  | f + 1 =>
    match parseSeq f vx cs p with
    | .error e => .error e
    | .ok (r1, cs1, p1) =>
      match cs1 with
      | '|' :: rest =>
        match parseAlt f vx rest (p1 + 1) with
        | .ok (r2, cs2, p2) => .ok (RE.alt r1 r2, cs2, p2)
        | .error e => .error e
      | _ => .ok (r1, cs1, p1)
termination_by structural fuel

def parseSeq (fuel : Nat) (vx : Bool) (cs : List Char) (p : Nat) :
    Except String (RE × List Char × Nat) :=
  match fuel with
  | 0 => .error (errAt "pattern too deeply nested for the model" p)
  | f + 1 =>
    match skipVs vx cs p with
    | (cs', p') =>
      match cs' with
      | [] => .ok (RE.eps, [], p')
      | ')' :: _ => .ok (RE.eps, cs', p')
      | '|' :: _ => .ok (RE.eps, cs', p')
      | _ =>
        match parseAtomQ f vx cs' p' with
        | .error e => .error e
        | .ok (a, cs1, p1) =>
          match parseSeq f vx cs1 p1 with
          | .ok (b, cs2, p2) => .ok (RE.cat a b, cs2, p2)
          | .error e => .error e
termination_by structural fuel

def parseAtomQ (fuel : Nat) (vx : Bool) (cs : List Char) (p : Nat) :
    Except String (RE × List Char × Nat) :=
  match fuel with
  | 0 => .error (errAt "pattern too deeply nested for the model" p)
  | f + 1 =>
    match parseAtom f vx cs p with
    | .error e => .error e
    | .ok ((a, repeatable), cs1, p1) =>
      let (cs1', p1') := skipVs vx cs1 p1
      let quant : Option ((Nat × Option Nat) × List Char × Nat × Nat) :=
        match cs1' with
        | '*' :: r => some ((0, none), r, p1' + 1, p1')
        | '+' :: r => some ((1, none), r, p1' + 1, p1')
        | '?' :: r => some ((0, some 1), r, p1' + 1, p1')
        | '{' :: r =>
          match parseBraceQuant r (p1' + 1) with
          | some (b, r', pq) => some (b, r', pq, p1')
          | none => none
        | _ => none
      match quant with
      | none => .ok (a, cs1, p1)
      | some ((lo, hi), cs2, p2, qpos) =>
        if !repeatable then .error (errAt "nothing to repeat" qpos)
        else
          match hi with
          | some h =>
            if h < lo then .error (errAt "min repeat greater than max repeat" (qpos + 1))
            else parseQMode vx a lo hi cs2 p2
          | none => parseQMode vx a lo hi cs2 p2
termination_by structural fuel

def parseAtom (fuel : Nat) (vx : Bool) (cs : List Char) (p : Nat) :
    Except String ((RE × Bool) × List Char × Nat) :=
  match fuel with
  | 0 => .error (errAt "pattern too deeply nested for the model" p)
  | f + 1 =>
    match cs with
    | [] => .error (errAt "unexpected end of pattern" p)
    | '(' :: rest =>
      match rest with
      | '?' :: ':' :: r2 =>
        match parseAlt f vx r2 (p + 3) with
        | .error e => .error e
        | .ok (r, cs1, p1) =>
          match cs1 with
          | ')' :: cs2 => .ok ((RE.grp r, true), cs2, p1 + 1)
          | _ => .error (errAt "missing ), unterminated subpattern" p)
      | '?' :: _ => .error (errAt "extension group outside the modelled subset" (p + 1))
      | _ =>
        match parseAlt f vx rest (p + 1) with
        | .error e => .error e
        | .ok (r, cs1, p1) =>
          match cs1 with
          | ')' :: cs2 => .ok ((RE.grp r, true), cs2, p1 + 1)
          | _ => .error (errAt "missing ), unterminated subpattern" p)
    | '[' :: rest =>
      match parseClsAtom f rest p with
      | .ok (re, cs1, p1) => .ok ((re, true), cs1, p1)
      | .error e => .error e
    | '.' :: rest => .ok ((RE.anyc, true), rest, p + 1)
    | '^' :: rest => .ok ((RE.caret, false), rest, p + 1)
    | '$' :: rest => .ok ((RE.dollar, false), rest, p + 1)
    | '\\' :: rest => parseEscAtom rest p
    | '*' :: _ => .error (errAt "nothing to repeat" p)
    | '+' :: _ => .error (errAt "nothing to repeat" p)
    | '?' :: _ => .error (errAt "nothing to repeat" p)
    | '{' :: rest =>
      match parseBraceQuant rest (p + 1) with
      | some _ => .error (errAt "nothing to repeat" p)
      | none => .ok ((RE.lit '{', true), rest, p + 1)
    | c :: rest => .ok ((RE.lit c, true), rest, p + 1)
termination_by structural fuel

end

/-- `re.compile` on the modelled subset: parse the whole pattern; a leftover
`)` is CPython's unbalanced-parenthesis error. -/
def pyCompile (pattern : String) (fl : ReFlags) : Except String RE :=
  match parseAlt (2 * pattern.data.length + 8) fl.x pattern.data 0 with
  | .error e => .error e
  | .ok (re, rest, p) =>
    match rest with
    | [] => .ok re
    | _ => .error (errAt "unbalanced parenthesis" p)

/-! ### Backtracking matcher

A match state is the previous character (for `^`, `\b`) together with the
remaining text.  `mtch` returns the list of possible successor states in
CPython's preference order (alternation left-first, greedy quantifiers
longest-first), so the head of the list is the match `re.search` commits to.
The fuel bounds the recursion depth; `pySearch` supplies a bound that the
matcher cannot exhaust on the modelled subset (depth is at most pattern size
times remaining text, and every unbounded repetition consumes a character or
stops). -/

/-- Literal comparison under optional `re.IGNORECASE` (ASCII case mapping). -/
def litEq (ic : Bool) (a b : Char) : Bool :=
  if ic then a.toLower == b.toLower else a == b

def clsItemMem (it : ClsItem) (c : Char) : Bool :=
  match it with
  | .rng lo hi => decide (lo ≤ c) && decide (c ≤ hi)
  | .pcls k neg => perlMem k c != neg

/-- Set membership under optional `re.IGNORECASE`. -/
def csetMem (ic : Bool) (items : List ClsItem) (c : Char) : Bool :=
  items.any (fun it => clsItemMem it c) ||
    (ic && (items.any (fun it => clsItemMem it c.toLower) ||
            items.any (fun it => clsItemMem it c.toUpper)))

/-- Word-character test on an optional character (`\b` neighbours). -/
def wordish : Option Char → Bool
  | some c => perlMem .word c
  | none => false

mutual

def mtch (fuel : Nat) (fl : ReFlags) (re : RE) (st : Option Char × List Char) :
    List (Option Char × List Char) :=
  match fuel with
  | 0 => []
  | f + 1 =>
    match re, st with
    | .eps, st => [st]
    | .lit c, (_, rest) =>
      match rest with
      | [] => []
      | x :: xs => if litEq fl.i c x then [(some x, xs)] else []
    | .anyc, (_, rest) =>
      match rest with
      | [] => []
      | x :: xs => if x == '\n' && !fl.s then [] else [(some x, xs)]
    | .cset neg items, (_, rest) =>
      match rest with
      | [] => []
      | x :: xs => if csetMem fl.i items x != neg then [(some x, xs)] else []
    | .pesc k neg, (_, rest) =>
      match rest with
      | [] => []
      | x :: xs => if perlMem k x != neg then [(some x, xs)] else []
    | .caret, (prev, rest) =>
      if prev.isNone || (fl.m && prev == some '\n') then [(prev, rest)] else []
    | .dollar, (prev, rest) =>
      if rest.isEmpty || (if fl.m then rest.head? == some '\n' else rest == ['\n']) then
        [(prev, rest)]
      else []
    | .aStart, (prev, rest) => if prev.isNone then [(prev, rest)] else []
    | .zEnd, (prev, rest) => if rest.isEmpty then [(prev, rest)] else []
    | .wordB neg, (prev, rest) =>
      if (wordish prev != wordish rest.head?) != neg then [(prev, rest)] else []
    | .cat a b, st => (mtch f fl a st).flatMap (fun st' => mtch f fl b st')
    | .alt a b, st => mtch f fl a st ++ mtch f fl b st
    | .grp a, st => mtch f fl a st
    | .rep a lo hi mode, st => repM f fl a lo hi mode st
termination_by structural fuel

def repM (fuel : Nat) (fl : ReFlags) (a : RE) (lo : Nat) (hi : Option Nat) (mode : RMode)
    (st : Option Char × List Char) : List (Option Char × List Char) :=
  match fuel with
  | 0 => []
  | f + 1 =>
    match lo with
    | n + 1 =>
      (mtch f fl a st).flatMap (fun st' => repM f fl a n (hi.map (fun h => h - 1)) mode st')
    | 0 =>
      match hi with
      | some 0 => [st]
      | _ =>
        let deeper := (mtch f fl a st).flatMap (fun st' =>
          if st'.2.length < st.2.length then
            repM f fl a 0 (hi.map (fun h => h - 1)) mode st'
          else [st'])
        match mode with
        | .greedy => deeper ++ [st]
        | .lazy => st :: deeper
        | .poss => (deeper ++ [st]).take 1
termination_by structural fuel

end

/-- Structural size of a regex, used only to compute a sufficient fuel. -/
def reSize : RE → Nat
  | .cat a b => reSize a + reSize b + 1
  | .alt a b => reSize a + reSize b + 1
  | .grp a => reSize a + 1
  | .rep a lo hi _ =>
    (reSize a + 1) * (lo + (match hi with | some h => h | none => 0) + 2) + 1
  | _ => 1

/-- Fuel sufficient for matching at one position of a text of length `n`. -/
def fuelFor (re : RE) (n : Nat) : Nat := (reSize re + 2) * (n + 2) * 2 + 8

/-- Unanchored scan of `re.search`: try each start position left to right and
commit to the first (preference-ordered) match; the result is the matched
substring (`match.group(0)`). -/
def searchGo (fl : ReFlags) (re : RE) : Option Char → List Char → Option (List Char)
  | prev, rest =>
    match mtch (fuelFor re rest.length) fl re (prev, rest) with
    | (_, rest') :: _ => some (rest.take (rest.length - rest'.length))
    | [] =>
      match rest with
      | [] => none
      | c :: t => searchGo fl re (some c) t

/-- `compiled_pattern.search(text)`, returning `match.group(0)`. -/
def pySearch (re : RE) (fl : ReFlags) (text : List Char) : Option (List Char) :=
  searchGo fl re none text

/-! ### The check itself (`validators/custom_regex.py` lines 48-103) -/

/-- Flag-letter test of the source: `"i" in flags.lower()` etc.  `str.lower`
is modelled with ASCII case mapping (CPython's Unicode lowering differs only
on non-ASCII letters, e.g. `İ`). -/
def flagOn (flags : String) (c : Char) : Bool :=
  (flags.data.map Char.toLower).contains c

/-- The five membership tests of lines 52-66, in source order. -/
def reFlagsOf (flags : String) : ReFlags :=
  ⟨flagOn flags 'i', flagOn flags 'm', flagOn flags 's', flagOn flags 'x', flagOn flags 'a'⟩

/-- `flag_descriptions` as built by lines 52-66: one entry per active flag,
always in the order i, m, s, x, a. -/
def flagDescriptions (fl : ReFlags) : List String :=
  (if fl.i then ["case-insensitive"] else []) ++
  (if fl.m then ["multiline"] else []) ++
  (if fl.s then ["dotall"] else []) ++
  (if fl.x then ["verbose"] else []) ++
  (if fl.a then ["ASCII-only"] else [])

/-- Body of `validate_regex` after flag parsing (lines 68-103).  The final
`except Exception` handler of the source has no counterpart because the
modelled compile and search are total: the only failure is the `re.error`
branch. -/
def validate_regex_core (text pattern : String) (fl : ReFlags) : ValidationResult :=
  match pyCompile pattern fl with
  | .error e =>
    { valid := false
      input := text
      pattern := some pattern
      message := "Invalid regex pattern: " ++ e }
  | .ok prog =>
    match pySearch prog fl text.data with
    | some m =>
      let descs := flagDescriptions fl
      let flag_note := if descs.isEmpty then "" else " (" ++ String.intercalate ", " descs ++ ")"
      { valid := true
        input := text
        pattern := some pattern
        message := "Pattern matched" ++ flag_note
        matched := some ⟨m⟩ }
    | none =>
      { valid := false
        input := text
        pattern := some pattern
        message := "Pattern did not match" }

/-- `validate_regex` from `validators/custom_regex.py`. -/
def validate_regex (text pattern flags : String) : ValidationResult :=
  validate_regex_core text pattern (reFlagsOf flags)

/-! ## REST layer (`rest_api.py`)

Only the fragment needed for the regex endpoint is modelled: the endpoint's
call into `validate_regex` uses Python keyword-argument binding, and CPython
raises `TypeError` before entering the callee whenever a keyword argument
does not name a parameter of the callee.  `rest_api.py` catches any exception
from the call and raises `HTTPException(status_code=500)`. -/

/-- A Python value as it appears in the endpoint's call (enough to express
the request fields). -/
inductive PyValue where
  | str (s : String)
  | int (n : Int)
  | pyNone
deriving DecidableEq, Repr

/-- Parameter names of `def validate_regex(text, pattern, flags="")`
(`validators/custom_regex.py` line 8). -/
def validateRegexParams : List String := ["text", "pattern", "flags"]

/-- Python keyword-call semantics, specialised to `validate_regex`: every
keyword must name a parameter (else `TypeError` at call time); the bound
`text`, `pattern` and `flags` must then be strings, since the body calls
`flags.lower()` before its `try` block (line 52) and the matcher receives
`text`/`pattern` — a non-string raises out of the callee. -/
def callValidateRegex (kwargs : List (String × PyValue)) : Except String ValidationResult :=
  if !(kwargs.all (fun kv => validateRegexParams.contains kv.1)) then
    .error "TypeError: validate_regex() got an unexpected keyword argument"
  else
    match kwargs.lookup "text", kwargs.lookup "pattern",
          (kwargs.lookup "flags").getD (.str "") with
    | some (.str t), some (.str pat), .str fs => .ok (validate_regex t pat fs)
    | _, _, _ => .error "TypeError: non-string argument"

/-- Request body of `POST /validate/regex` (`RegexRequest`, lines 46-51). -/
structure RegexRequest where
  text : String
  pattern : String
  description : Option String
  flags : Int
deriving DecidableEq, Repr

/-- Outcome of an endpoint: a 200 body or an `HTTPException` status. -/
inductive EndpointOutcome where
  | ok (r : ValidationResult)
  | httpError (status : Nat)
deriving DecidableEq, Repr

/-- `validate_regex_endpoint` (lines 186-195): the call site passes keyword
arguments `text`, `pattern`, `description`, `flags` (with `description`
optional and `flags` an integer); any exception becomes HTTP 500. -/
def validate_regex_endpoint (req : RegexRequest) : EndpointOutcome :=
  let kwargs : List (String × PyValue) :=
    [("text", .str req.text), ("pattern", .str req.pattern),
     ("description", match req.description with | some d => .str d | none => .pyNone),
     ("flags", .int req.flags)]
  match callValidateRegex kwargs with
  | .ok r => .ok r
  | .error _ => .httpError 500

/-! ## Django client helper (`clients/django_client.py`)

The module keeps a lazily constructed singleton `_client`; the state of that
global is passed explicitly here.  Only the construction and the request URL
of the convenience `validate_email` are modelled (the HTTP exchange itself is
an external effect). -/

/-- `ValidationAPIClient`: `__init__` stores `base_url.rstrip('/')`. -/
structure ValidationAPIClient where
  base_url : String
deriving DecidableEq, Repr

/-- Python `str.rstrip('/')`: remove every trailing slash. -/
def rstripSlash (s : String) : String :=
  ⟨(s.data.reverse.dropWhile (fun c => c == '/')).reverse⟩

/-- `ValidationAPIClient(base_url)` (lines 13-20). -/
def mkValidationAPIClient (base_url : String) : ValidationAPIClient :=
  ⟨rstripSlash base_url⟩

/-- The module-level `_client` global. -/
structure ClientState where
  client : Option ValidationAPIClient
deriving DecidableEq, Repr

/-- `get_validator_client` (lines 134-139): construct the singleton on first
use, return the existing instance ever after; the argument is ignored once
the singleton exists. -/
def get_validator_client (st : ClientState) (base_url : String) :
    ValidationAPIClient × ClientState :=
  match st.client with
  | some c => (c, st)
  | none =>
    let c := mkValidationAPIClient base_url
    (c, ⟨some c⟩)

/-- Default `base_url` of both `__init__` and `get_validator_client`. -/
def defaultBaseUrl : String := "http://localhost:8000"

/-- Request URL targeted by the module-level convenience `validate_email`
(lines 143-145 with lines 33-34): it calls `get_validator_client()` with the
default `base_url` and posts to `{base_url}/validate/email`. -/
def djangoValidateEmailTarget (st : ClientState) : String × ClientState :=
  let (c, st') := get_validator_client st defaultBaseUrl
  (c.base_url ++ "/validate/email", st')

/-! ## Helper lemmas -/

theorem neChar_of_class {cls : Char → Bool} {c a : Char} (h : cls c = true)
    (ha : cls a = false) : (c != a) = true := by
  rw [bne_iff_ne]
  rintro rfl
  rw [h] at ha
  exact absurd ha (by decide)

theorem takeWhile_split (p : Char → Bool) (l r : List Char) (a : Char)
    (hl : ∀ c ∈ l, p c = true) (ha : p a = false) :
    (l ++ a :: r).takeWhile p = l ∧ (l ++ a :: r).dropWhile p = a :: r := by
  induction l with
  | nil => simp [List.takeWhile_cons, List.dropWhile_cons, ha]
  | cons x xs ih =>
    have hx : p x = true := hl x (List.mem_cons_self x xs)
    have hrec := ih (fun c hc => hl c (List.mem_cons_of_mem x hc))
    simp [List.takeWhile_cons, List.dropWhile_cons, hx, hrec.1, hrec.2]

theorem isEmpty_false_of_ne_nil {l : List Char} (h : l ≠ []) : l.isEmpty = false := by
  cases l with
  | nil => exact absurd rfl h
  | cons x xs => rfl

/-- The domain scanner decides exactly the declarative domain language:
a nonempty run of domain characters, a dot, and a top-level label of at
least two letters. -/
theorem emailDomainMatch_iff (r : List Char) :
    emailDomainMatch r = true ↔
      ∃ d t : List Char, r = d ++ '.' :: t ∧ d ≠ [] ∧ (∀ c ∈ d, isDomainChar c = true) ∧
        2 ≤ t.length ∧ (∀ c ∈ t, c.isAlpha = true) := by
  constructor
  · intro h
    unfold emailDomainMatch at h
    set T := r.reverse.takeWhile (fun c => c != '.') with hT
    split at h
    case h_2 => exact absurd h (by decide)
    case h_1 b2 drev heq2 =>
      simp only [Bool.and_eq_true, beq_iff_eq, decide_eq_true_eq, List.all_eq_true] at h
      obtain ⟨⟨⟨⟨hb2, hlen⟩, htall⟩, hdne⟩, hdall⟩ := h
      subst hb2
      have hrrev := (List.takeWhile_append_dropWhile
        (p := fun c => c != '.') (l := r.reverse)).symm
      rw [heq2, ← hT] at hrrev
      have hr : r = drev.reverse ++ '.' :: T.reverse := by
        have h0 := congrArg List.reverse hrrev
        rw [List.reverse_reverse] at h0
        rw [h0]
        simp [List.reverse_append]
      refine ⟨drev.reverse, T.reverse, hr, ?_, ?_, ?_, ?_⟩
      · intro h0
        have hd0 : drev = [] := by simpa using congrArg List.reverse h0
        rw [hd0] at hdne
        exact absurd hdne (by decide)
      · intro c hc
        exact hdall c (List.mem_reverse.mp hc)
      · rw [List.length_reverse]
        exact hlen
      · intro c hc
        exact htall c (List.mem_reverse.mp hc)
  · rintro ⟨d, t, rfl, hdne, hd, htlen, ht⟩
    have hrev : (d ++ '.' :: t).reverse = t.reverse ++ '.' :: d.reverse := by
      simp [List.reverse_append]
    have h2 := takeWhile_split (fun c => c != '.') t.reverse d.reverse '.'
      (fun c hc => neChar_of_class (ht c (List.mem_reverse.mp hc)) (by decide)) (by decide)
    have hdrevne : d.reverse ≠ [] := fun h0 => hdne (by simpa using congrArg List.reverse h0)
    simp only [emailDomainMatch, hrev, h2.1, h2.2]
    simp [Bool.and_eq_true, List.all_eq_true, List.mem_reverse, List.length_reverse,
          isEmpty_false_of_ne_nil hdrevne, htlen]
    exact ⟨ht, hd⟩

/-- The scanner `emailCoreMatch` decides exactly the declarative email
language of the specification. -/
theorem emailCoreMatch_iff (cs : List Char) : emailCoreMatch cs = true ↔ EmailSpec cs := by
  constructor
  · intro h
    unfold emailCoreMatch at h
    set L := cs.takeWhile (fun c => c != '@') with hL
    split at h
    case h_2 => exact absurd h (by decide)
    case h_1 b r heq =>
      simp only [Bool.and_eq_true, beq_iff_eq, List.all_eq_true] at h
      obtain ⟨⟨⟨hb, hne⟩, hall⟩, hdom⟩ := h
      subst hb
      obtain ⟨d, t, hr, hdne, hd, htlen, ht⟩ := (emailDomainMatch_iff r).mp hdom
      have hcs := (List.takeWhile_append_dropWhile (p := fun c => c != '@') (l := cs)).symm
      rw [heq, ← hL] at hcs
      refine ⟨L, d, t, ?_, ?_, hall, hdne, hd, htlen, ht⟩
      · rw [hcs, hr]
      · intro h0
        rw [h0] at hne
        exact absurd hne (by decide)
  · rintro ⟨l, d, t, rfl, hlne, hl, hdne, hd, htlen, ht⟩
    have h1 := takeWhile_split (fun c => c != '@') l (d ++ '.' :: t) '@'
      (fun c hc => neChar_of_class (hl c hc) (by decide)) (by decide)
    have hdom : emailDomainMatch (d ++ '.' :: t) = true :=
      (emailDomainMatch_iff _).mpr ⟨d, t, rfl, hdne, hd, htlen, ht⟩
    simp only [emailCoreMatch, h1.1, h1.2]
    simp [Bool.and_eq_true, List.all_eq_true, isEmpty_false_of_ne_nil hlne, hdom]
    exact hl

/-- The scanner `phoneCoreMatch` decides exactly the declarative phone
language of the specification. -/
theorem phoneCoreMatch_iff (cs : List Char) : phoneCoreMatch cs = true ↔ PhoneSpec cs := by
  cases cs with
  | nil => simp [phoneCoreMatch, PhoneSpec]
  | cons a t =>
    cases t with
    | nil => simp [phoneCoreMatch, PhoneSpec]
    | cons c rest =>
      simp only [phoneCoreMatch, Bool.and_eq_true, beq_iff_eq, decide_eq_true_eq,
                 List.all_eq_true, PhoneSpec]
      constructor
      · rintro ⟨⟨⟨⟨⟨ha, h1⟩, h2⟩, hd⟩, h9⟩, h14⟩
        subst ha
        exact ⟨c, rest, rfl, h1, h2, hd, h9, h14⟩
      · rintro ⟨c', rest', heq, h1, h2, hd, h9, h14⟩
        injection heq with ha htail
        injection htail with hc hrest
        subst ha; subst hc; subst hrest
        exact ⟨⟨⟨⟨⟨rfl, h1⟩, h2⟩, hd⟩, h9⟩, h14⟩

/-! ## Claim theorems -/

/-- C1 (amended): `validate_email(s)` returns `valid = true` iff `s` itself,
or `s` with a single trailing newline removed, decomposes as
`local-part@domain` per the anchored email pattern.  (The bare biconditional
with the anchored pattern alone fails because CPython's `$` also matches just
before a trailing newline; see the counterexample.) -/
theorem c1_email_valid_iff (s : String) :
    (validate_email s).valid = true ↔
      (EmailSpec s.data ∨
        (s.data.getLast? = some '\n' ∧ EmailSpec s.data.dropLast)) := by
  show pyMatchDollar emailCoreMatch s = true ↔ _
  simp only [pyMatchDollar, Bool.or_eq_true, Bool.and_eq_true, beq_iff_eq,
             emailCoreMatch_iff]

/-- C1 counterexample: on `"a@b.co\n"` the check reports `valid = true`
although the whole string does not match the anchored pattern (the claimed
biconditional fails at this input). -/
theorem c1_counterexample_trailing_newline :
    (validate_email "a@b.co\n").valid = true ∧ ¬ EmailSpec "a@b.co\n".data := by
  constructor
  · decide
  · intro h
    exact absurd ((emailCoreMatch_iff _).mpr h) (by decide)

/-- C2 (amended): for ASCII input (where the model's `\d` agrees with
CPython's), `validate_phone(s)` returns `valid = true` iff `s` itself, or `s`
with a single trailing newline removed, is `+`, a digit `1-9`, and 9 to 14
further digits.  (As for C1, the bare anchored biconditional fails on a
trailing newline.) -/
theorem c2_phone_valid_iff (s : String) (_hascii : ∀ c ∈ s.data, c.toNat < 128) :
    (validate_phone s).valid = true ↔
      (PhoneSpec s.data ∨
        (s.data.getLast? = some '\n' ∧ PhoneSpec s.data.dropLast)) := by
  show pyMatchDollar phoneCoreMatch s = true ↔ _
  simp only [pyMatchDollar, Bool.or_eq_true, Bool.and_eq_true, beq_iff_eq,
             phoneCoreMatch_iff]

/-- Witness for C2: the hypotheses of `c2_phone_valid_iff` hold at the
concrete number `+12025551234`, and the theorem applies there. -/
theorem c2_phone_valid_iff_witness :
    (∀ c ∈ ("+12025551234" : String).data, c.toNat < 128) ∧
      ((validate_phone "+12025551234").valid = true ↔
        (PhoneSpec ("+12025551234" : String).data ∨
          (("+12025551234" : String).data.getLast? = some '\n' ∧
            PhoneSpec ("+12025551234" : String).data.dropLast))) :=
  ⟨by decide, c2_phone_valid_iff "+12025551234" (by decide)⟩

/-- C2 counterexample: on `"+12025551234\n"` the check reports `valid = true`
although the whole string is not `+` followed by 10-15 digits (the claimed
biconditional fails at this input). -/
theorem c2_counterexample_trailing_newline :
    (validate_phone "+12025551234\n").valid = true ∧
      ¬ PhoneSpec "+12025551234\n".data := by
  constructor
  · decide
  · intro h
    exact absurd ((phoneCoreMatch_iff _).mpr h) (by decide)

/-- C3: when the parse yields no authority, `validate_url` reports the
missing-domain failure even when the scheme is also wrong; the
invalid-scheme message can only arise when an authority is present; and in
particular `validate_url "ftp://"` reports a missing domain. -/
theorem c3_missing_domain_precedence :
    (∀ url parsed, pyUrlparse url = Except.ok parsed → parsed.netloc = "" →
      ¬(parsed.scheme = "http" ∨ parsed.scheme = "https") →
      (validate_url url).valid = false ∧
        (validate_url url).message = "Invalid URL: missing domain") ∧
    (∀ url parsed, pyUrlparse url = Except.ok parsed →
      (validate_url url).message = "Invalid URL scheme. Only HTTP/HTTPS allowed" →
      parsed.netloc ≠ "") ∧
    (validate_url "ftp://").message = "Invalid URL: missing domain" := by
  refine ⟨?_, ?_, rfl⟩
  · intro url parsed hok hnet hsch
    simp [validate_url, hok, validate_url_body, hnet]
  · intro url parsed hok hmsg h0
    have hmd : (validate_url url).message = "Invalid URL: missing domain" := by
      simp [validate_url, hok, validate_url_body, h0]
    rw [hmd] at hmsg
    exact absurd hmsg (by decide)

/-- Witness for C3: the missing-domain branch fires on the concrete input
`"ftp://"`, whose parse has an empty authority and scheme `ftp`. -/
theorem c3_missing_domain_precedence_witness :
    pyUrlparse "ftp://" = Except.ok ⟨"ftp", "", "", "", "", ""⟩ ∧
      ((validate_url "ftp://").valid = false ∧
        (validate_url "ftp://").message = "Invalid URL: missing domain") :=
  ⟨rfl, c3_missing_domain_precedence.1 "ftp://" ⟨"ftp", "", "", "", "", ""⟩ rfl rfl
    (by decide)⟩

/-- C4: for an `http`/`https` parse with a nonempty authority the check
reports valid with details scheme/netloc/path, the path defaulting to `/`
exactly when the parsed path is empty; concretely on
`"https://example.com/path"` and `"https://example.com"`. -/
theorem c4_valid_url_details :
    (∀ url parsed, pyUrlparse url = Except.ok parsed →
      (parsed.scheme = "http" ∨ parsed.scheme = "https") → parsed.netloc ≠ "" →
      validate_url url =
        { valid := true, input := url, message := "Valid HTTP/HTTPS URL",
          details := some [("scheme", parsed.scheme), ("netloc", parsed.netloc),
                           ("path", if parsed.path = "" then "/" else parsed.path)] }) ∧
    validate_url "https://example.com/path" =
      { valid := true, input := "https://example.com/path",
        message := "Valid HTTP/HTTPS URL",
        details := some [("scheme", "https"), ("netloc", "example.com"),
                         ("path", "/path")] } ∧
    (validate_url "https://example.com").details =
      some [("scheme", "https"), ("netloc", "example.com"), ("path", "/")] := by
  refine ⟨?_, rfl, rfl⟩
  intro url parsed hok hsch hnet
  have hnet' : (parsed.netloc != "") = true := by simpa [bne_iff_ne] using hnet
  have hsch' : (["http", "https"] : List String).contains parsed.scheme = true := by
    rcases hsch with h | h <;> rw [h] <;> decide
  simp [validate_url, hok, validate_url_body, hnet', hsch', beq_iff_eq]
  exact fun h => hsch.resolve_left h

/-- Witness for C4: the valid branch fires on the concrete input
`"https://example.com/path"`. -/
theorem c4_valid_url_details_witness :
    pyUrlparse "https://example.com/path" =
        Except.ok ⟨"https", "example.com", "/path", "", "", ""⟩ ∧
      validate_url "https://example.com/path" =
        { valid := true, input := "https://example.com/path",
          message := "Valid HTTP/HTTPS URL",
          details := some [("scheme", "https"), ("netloc", "example.com"),
                           ("path", if ("/path" : String) = "" then "/" else "/path")] } :=
  ⟨rfl, c4_valid_url_details.1 "https://example.com/path"
    ⟨"https", "example.com", "/path", "", "", ""⟩ rfl (Or.inr rfl) (by decide)⟩

/-- C5: every failure is reified into a returned result.  The email and phone
checks have no error path at all (their result is a total function of the
match).  For the URL check a parse `ValueError` becomes a `valid = false`
result with the parsing-error message; for the regex check a compile failure
becomes a `valid = false` result carrying the syntax diagnostic. -/
theorem c5_checks_never_raise :
    (∀ s, validate_email s =
      { valid := pyMatchDollar emailCoreMatch s, input := s,
        message := if pyMatchDollar emailCoreMatch s then "Valid email format"
                   else "Invalid email format" }) ∧
    (∀ s, validate_phone s =
      { valid := pyMatchDollar phoneCoreMatch s, input := s,
        message := if pyMatchDollar phoneCoreMatch s then "Valid E.164 phone format"
                   else "Invalid phone format. Use E.164: +[country][number]" }) ∧
    (∀ url e, pyUrlparse url = Except.error e →
      validate_url url =
        { valid := false, input := url, message := "URL parsing error: " ++ e,
          details := some [] }) ∧
    (∀ text pattern flags e, pyCompile pattern (reFlagsOf flags) = Except.error e →
      validate_regex text pattern flags =
        { valid := false, input := text, pattern := some pattern,
          message := "Invalid regex pattern: " ++ e }) := by
  refine ⟨fun s => rfl, fun s => rfl, ?_, ?_⟩
  · intro url e h
    simp [validate_url, h]
  · intro text pattern flags e h
    simp [validate_regex, validate_regex_core, h]

/-- Witness for C5: the URL branch at `"http://["` (a parse `ValueError`) and
the regex branch at pattern `"(unclosed"`. -/
theorem c5_checks_never_raise_witness :
    pyUrlparse "http://[" = Except.error "Invalid IPv6 URL" ∧
      validate_url "http://[" =
        { valid := false, input := "http://[",
          message := "URL parsing error: " ++ "Invalid IPv6 URL",
          details := some [] } ∧
      pyCompile "(unclosed" (reFlagsOf "") =
        Except.error "missing ), unterminated subpattern at position 0" ∧
      validate_regex "x" "(unclosed" "" =
        { valid := false, input := "x", pattern := some "(unclosed",
          message := "Invalid regex pattern: " ++
            "missing ), unterminated subpattern at position 0" } :=
  ⟨rfl, c5_checks_never_raise.2.2.1 "http://[" "Invalid IPv6 URL" rfl,
   rfl, c5_checks_never_raise.2.2.2 "x" "(unclosed" "" _ rfl⟩

/-- C6: when compilation of the pattern fails, `validate_regex` returns
`valid = false`, echoes the pattern, embeds the syntax-error detail in the
message, and carries no `match` field; concretely so for
`validate_regex "x" "(unclosed" ""`. -/
theorem c6_invalid_pattern_result :
    (∀ text flags pattern e, pyCompile pattern (reFlagsOf flags) = Except.error e →
      validate_regex text pattern flags =
        { valid := false, input := text, pattern := some pattern,
          message := "Invalid regex pattern: " ++ e, matched := none,
          details := none }) ∧
    validate_regex "x" "(unclosed" "" =
      { valid := false, input := "x", pattern := some "(unclosed",
        message := "Invalid regex pattern: missing ), unterminated subpattern at position 0",
        matched := none, details := none } := by
  refine ⟨?_, rfl⟩
  intro text flags pattern e h
  simp [validate_regex, validate_regex_core, h]

/-- Witness for C6: applied at the concrete malformed pattern `"(unclosed"`. -/
theorem c6_invalid_pattern_result_witness :
    pyCompile "(unclosed" (reFlagsOf "") =
        Except.error "missing ), unterminated subpattern at position 0" ∧
      validate_regex "x" "(unclosed" "" =
        { valid := false, input := "x", pattern := some "(unclosed",
          message := "Invalid regex pattern: " ++
            "missing ), unterminated subpattern at position 0",
          matched := none, details := none } :=
  ⟨rfl, c6_invalid_pattern_result.1 "x" "" "(unclosed" _ rfl⟩

/-- C7: the result of `validate_regex` depends on the flag string only
through the set of flag letters it denotes (order, letter case and
duplicates are irrelevant), and a successful match's message carries the
active flag descriptions in the fixed order i, m, s, x, a; concretely the
flag string `"mi"` yields the parenthetical
`(case-insensitive, multiline)` with `i` listed first. -/
theorem c7_flag_set_determines_result :
    (∀ f1 f2 : String, reFlagsOf f1 = reFlagsOf f2 →
      ∀ text pattern, validate_regex text pattern f1 = validate_regex text pattern f2) ∧
    (∀ text pattern flags, (validate_regex text pattern flags).valid = true →
      (validate_regex text pattern flags).message =
        "Pattern matched" ++
          (if (flagDescriptions (reFlagsOf flags)).isEmpty then ""
           else " (" ++ String.intercalate ", " (flagDescriptions (reFlagsOf flags)) ++ ")")) ∧
    (validate_regex "hello" "HELLO" "mi").message =
      "Pattern matched (case-insensitive, multiline)" := by
  refine ⟨?_, ?_, rfl⟩
  · intro f1 f2 h text pattern
    unfold validate_regex
    rw [h]
  · intro text pattern flags hvalid
    unfold validate_regex validate_regex_core at hvalid ⊢
    cases hc : pyCompile pattern (reFlagsOf flags) with
    | error e =>
      rw [hc] at hvalid
      simp at hvalid
    | ok prog =>
      rw [hc] at hvalid
      cases hs : pySearch prog (reFlagsOf flags) text.data with
      | none => simp [hs] at hvalid
      | some m => simp [hs]

/-- Witness for C7: the flag strings `"IM"` and `"mi"` denote the same flag
set, so the results agree on the concrete call, and the message conjunct
applies at the successful concrete call with flags `"mi"`. -/
theorem c7_flag_set_determines_result_witness :
    reFlagsOf "IM" = reFlagsOf "mi" ∧
      validate_regex "hello" "HELLO" "IM" = validate_regex "hello" "HELLO" "mi" ∧
      ((validate_regex "hello" "HELLO" "mi").valid = true ∧
        (validate_regex "hello" "HELLO" "mi").message =
          "Pattern matched" ++
            (if (flagDescriptions (reFlagsOf "mi")).isEmpty then ""
             else " (" ++ String.intercalate ", " (flagDescriptions (reFlagsOf "mi")) ++ ")")) :=
  ⟨rfl, c7_flag_set_determines_result.1 "IM" "mi" rfl "hello" "HELLO",
   rfl, c7_flag_set_determines_result.2.1 "hello" "HELLO" "mi" rfl⟩

/-- C8: every check echoes its input verbatim in the `input` field, in every
branch of every check. -/
theorem c8_input_echoed_verbatim :
    (∀ s, (validate_email s).input = s) ∧
    (∀ s, (validate_phone s).input = s) ∧
    (∀ s, (validate_url s).input = s) ∧
    (∀ text pattern flags, (validate_regex text pattern flags).input = text) := by
  refine ⟨fun s => rfl, fun s => rfl, fun s => ?_, fun text pattern flags => ?_⟩
  · cases h : pyUrlparse s with
    | error e => simp [validate_url, h]
    | ok parsed =>
      simp only [validate_url, h, validate_url_body]
      split
      · rfl
      · split <;> rfl
  · unfold validate_regex validate_regex_core
    cases hc : pyCompile pattern (reFlagsOf flags) with
    | error e => rfl
    | ok prog =>
      cases hs : pySearch prog (reFlagsOf flags) text.data with
      | none => simp [hs]
      | some m => simp [hs]

/-- C9: the REST regex endpoint always fails with HTTP 500: its call passes
the keyword argument `description`, which `validate_regex` does not accept,
so Python raises `TypeError` at the call, and the endpoint's handler turns
any exception into `HTTPException(500)`. -/
theorem c9_regex_endpoint_always_500 (req : RegexRequest) :
    validate_regex_endpoint req = EndpointOutcome.httpError 500 := rfl

/-- C10: the singleton client is constructed on the first call only; any
later call returns the same client and the same state whatever `base_url` it
passes, the client's `base_url` stays the one fixed by the first call (with
trailing slashes stripped), and the module-level convenience `validate_email`
targets that first URL. -/
theorem c10_singleton_base_url_fixed (u1 u2 : String) :
    get_validator_client (get_validator_client ⟨none⟩ u1).2 u2 =
        ((get_validator_client ⟨none⟩ u1).1, (get_validator_client ⟨none⟩ u1).2) ∧
      ((get_validator_client ⟨none⟩ u1).1).base_url = rstripSlash u1 ∧
      (djangoValidateEmailTarget (get_validator_client ⟨none⟩ u1).2).1 =
        rstripSlash u1 ++ "/validate/email" :=
  ⟨rfl, rfl, rfl⟩
